import Mathlib

/-!
Verification development for the slim-rabbit framework (a Koa-style
RabbitMQ micro-service framework).

The development shallowly embeds the two source files:

* `src/context.js` — the per-message `Context` class: `publish`,
  `sendToQueue`, `onerror`, `bufferFrom`, and the constructor that copies
  `app.context` onto the fresh context object;
* the `Application` class (`index.js`) — `use`, `prefetch`, `connect`,
  `close`, and the per-message dispatch loop `messageHandler`.

JavaScript values are embedded as the inductive `JSVal`; `typeof`,
`Buffer.isBuffer`, `JSON.stringify`, template-string coercion and
`Buffer.from` are embedded alongside.  Fallible operations return
`Except JsError`.  Asynchronous functions are embedded by their settled
outcome: a fulfilled promise is `.ok`, a rejected one is `.error`; an
`async` function that runs effects is embedded as explicit state passing.

The Composition Engine (the `koa-compose` dependency) is not part of this
repository's sources; it is modelled from the spec, see `dispatchFrom`.
-/

/-- Embedding of the JavaScript values the framework manipulates.
`vfun` is an opaque function value (functions' behaviour is irrelevant to
type validation, only their `typeof` matters); `vref` is an opaque host
object reference (the application instance, connections, channels); plain
objects are insertion-ordered string-keyed property lists. -/
inductive JSVal where
  | vstr (s : String)
  | vnum (n : Int)
  | vbool (b : Bool)
  | vnull
  | vundef
  | vfun (id : Nat)
  | vobj (fields : List (String × JSVal))
  | vbuf (bytes : List UInt8)
  | vref (tag : String)

/-- JavaScript `typeof`.  Note `typeof null === 'object'`, Buffers and all
host objects are `'object'`. -/
def jsTypeof : JSVal → String
  | .vstr _ => "string"
  | .vnum _ => "number"
  | .vbool _ => "boolean"
  | .vnull => "object"
  | .vundef => "undefined"
  | .vfun _ => "function"
  | .vobj _ => "object"
  | .vbuf _ => "object"
  | .vref _ => "object"

/-- `Buffer.isBuffer` (and, for the arguments reachable here, equivalently
`content instanceof Buffer`). -/
def isBuffer : JSVal → Bool
  | .vbuf _ => true
  | _ => false

/-- JSON string escaping for one character (the escapes relevant to the
embedded value grammar). -/
def jsonQuoteChar (c : Char) : String :=
  if c = '\\' then "\\\\"
  else if c = '\"' then "\\\""
  else if c = '\n' then "\\n"
  else if c = '\t' then "\\t"
  else if c = '\r' then "\\r"
  else String.singleton c

/-- JSON serialization of a string: double-quoted and escaped. -/
def jsonQuote (s : String) : String :=
  "\"" ++ String.join (s.data.map jsonQuoteChar) ++ "\""

/-- `JSON.stringify` of a Node `Buffer` (its `toJSON` form). -/
def bufferJSON (bytes : List UInt8) : String :=
  "\x7b\"type\":\"Buffer\",\"data\":[" ++
    String.intercalate "," (bytes.map (fun b => toString b.toNat)) ++ "]\x7d"

mutual

/-- `JSON.stringify`.  Returns `none` where JavaScript returns the
undefined value (functions and `undefined`); object properties with such
values are dropped, mirroring `JSON.stringify`. Host references serialize
as empty objects (their own enumerable properties are not modelled). -/
def jsonStringify : JSVal → Option String
  | .vstr s => some (jsonQuote s)
  | .vnum n => some (toString n)
  | .vbool b => some (if b then "true" else "false")
  | .vnull => some "null"
  | .vundef => none
  | .vfun _ => none
  | .vobj fields => some ("\x7b" ++ String.intercalate "," (jsonFields fields) ++ "\x7d")
  | .vbuf bytes => some (bufferJSON bytes)
  | .vref _ => some "\x7b\x7d"

/-- Serialization of an object's property list, dropping properties whose
values do not serialize. -/
def jsonFields : List (String × JSVal) → List String
  | [] => []
  | (k, v) :: rest =>
    match jsonStringify v with
    | some s => (jsonQuote k ++ ":" ++ s) :: jsonFields rest
    | none => jsonFields rest

end

/-- `JSON.stringify` as used on a value of `typeof 'object'` inside
`bufferFrom`: every such value serializes to a string, so the default is
unreachable there. -/
def jsonStringifyD (v : JSVal) : String :=
  (jsonStringify v).getD "undefined"

/-- JavaScript template-string coercion (the backtick-dollar form used by
`bufferFrom`).  Values of `typeof 'object'` and Buffers never reach this
coercion inside `bufferFrom` (they take the `JSON.stringify` branch or the
early Buffer return); function source text is opaque, so an opaque
stand-in is used. -/
def templateStr : JSVal → String
  | .vstr s => s
  | .vnum n => toString n
  | .vbool b => if b then "true" else "false"
  | .vnull => "null"
  | .vundef => "undefined"
  | .vfun id => "[function " ++ toString id ++ "]"
  | .vobj _ => "[object Object]"
  | .vbuf _ => "[object Buffer]"
  | .vref _ => "[object Object]"

/-- UTF-8 bytes of a string, as produced by `Buffer.from(string)`. -/
def utf8Bytes (s : String) : List UInt8 :=
  (s.data.map String.utf8EncodeChar).flatten

/-- `Context.bufferFrom` (src/context.js, lines 73-77): Buffers pass
through unchanged; values of `typeof 'object'` are `JSON.stringify`-ed;
everything else is template-string coerced; the resulting string is
encoded with `Buffer.from`. -/
def bufferFrom (data : JSVal) : JSVal :=
  if isBuffer data then data
  else
    .vbuf (utf8Bytes (if jsTypeof data = "object" then jsonStringifyD data else templateStr data))

/-- JavaScript errors thrown by the framework: `TypeError` versus plain
`Error`, each carrying its message. -/
inductive JsError where
  | typeError (msg : String)
  | error (msg : String)
deriving DecidableEq, Repr

/-- True exactly when a result is a thrown `TypeError`. -/
def isTypeError {α : Type} : Except JsError α → Bool
  | .error (.typeError _) => true
  | _ => false

/-- A call delegated to a transport channel: which channel field it went
through, the method name, and the arguments in order.  The transport
operation's result is opaque, so the call descriptor itself stands for
that result. -/
structure ChannelCall where
  channel : String
  op : String
  args : List JSVal

/-- `Context.publish` (src/context.js, lines 32-41): four sequential type
validations, then `bufferFrom` on the content, then delegation to
`this.publisherChannel.publish`, whose result is returned. -/
def publish (exchange routingKey content options : JSVal) : Except JsError ChannelCall :=
  if jsTypeof exchange ≠ "string" then .error (.typeError "[exchange] must be a string.")
  else if jsTypeof routingKey ≠ "string" then .error (.typeError "[routingKey] must be a string.")
  else if ¬(jsTypeof content = "string" ∨ jsTypeof content = "object" ∨ isBuffer content) then
    .error (.typeError "[content] must be a string, object or an instance of Buffer.")
  else if jsTypeof options ≠ "object" then .error (.typeError "[options] must be an object.")
  else .ok ⟨"publisherChannel", "publish", [exchange, routingKey, bufferFrom content, options]⟩

/-- `Context.sendToQueue` (src/context.js, lines 50-58): like `publish`
but keyed on a queue name (note the source's `[queue]` message has no
trailing period). -/
def sendToQueue (queue content options : JSVal) : Except JsError ChannelCall :=
  if jsTypeof queue ≠ "string" then .error (.typeError "[queue] must be a string")
  else if ¬(jsTypeof content = "string" ∨ jsTypeof content = "object" ∨ isBuffer content) then
    .error (.typeError "[content] must be a string, object or an instance of Buffer.")
  else if jsTypeof options ≠ "object" then .error (.typeError "[options] must be an object.")
  else .ok ⟨"publisherChannel", "sendToQueue", [queue, bufferFrom content, options]⟩

/-- First-match lookup of a property on an embedded object. -/
def getKey : List (String × JSVal) → String → Option JSVal
  | [], _ => none
  | (k', v) :: rest, k => if k' = k then some v else getKey rest k

/-- JavaScript property assignment `o[k] = v` on an embedded object:
overwrite in place if the key exists (insertion order preserved),
otherwise append. -/
def setKey : List (String × JSVal) → String → JSVal → List (String × JSVal)
  | [], k, v => [(k, v)]
  | (k', v') :: rest, k, v => if k' = k then (k, v) :: rest else (k', v') :: setKey rest k v

/-- `Object.assign(target, source)`: assign each own enumerable property
of `source` onto `target`, in property order. -/
def objAssign (target source : List (String × JSVal)) : List (String × JSVal) :=
  source.foldl (fun o kv => setKey o kv.1 kv.2) target

/-- Value of the last assignment a source list makes to a key, if any. -/
def lookupLast : List (String × JSVal) → String → Option JSVal
  | [], _ => none
  | (k', v) :: rest, k =>
    match lookupLast rest k with
    | some w => some w
    | none => if k' = k then some v else none

/-- The slice of the `Application` instance the embedded operations read:
the transport handles, the constructor-provided queue configuration, the
`app.context` augmentation object (as its own enumerable properties in
order), the registered middleware array, and the number of registered
`consumer:error` listeners. -/
structure AppObj where
  connection : JSVal
  consumerChannel : JSVal
  publisherChannel : JSVal
  queueName : JSVal
  queueOpts : JSVal
  consumeOpts : JSVal
  context : List (String × JSVal)
  middlewares : List JSVal
  errorListenerCount : Nat

/-- The `Context` constructor (src/context.js, lines 11-22) viewed as the
object it builds: the built-in fields are assigned in source order
(`app`, `connection`, `consumerChannel`, `publisherChannel`, `queueName`,
`message`, `queueOpts`, `consumeOpts`, then a fresh empty `state`), and
then `Object.assign(this, app.context)` copies the augmentation object's
own enumerable properties over it.  The `app` field holds the application
reference, embedded as an opaque host reference. -/
def contextNew (app : AppObj) (message : JSVal) : List (String × JSVal) :=
  objAssign
    [("app", .vref "app"), ("connection", app.connection),
     ("consumerChannel", app.consumerChannel), ("publisherChannel", app.publisherChannel),
     ("queueName", app.queueName), ("message", message),
     ("queueOpts", app.queueOpts), ("consumeOpts", app.consumeOpts),
     ("state", .vobj [])]
    app.context

/-- The names of the built-in fields the `Context` constructor assigns
before `Object.assign(this, app.context)` runs. -/
def builtinContextKeys : List String :=
  ["app", "connection", "consumerChannel", "publisherChannel", "queueName",
   "message", "queueOpts", "consumeOpts", "state"]

/-- The validation loop of `Application.use` (index.js, lines 477-483):
the first non-function argument, scanned in order, produces the thrown
`TypeError`. -/
def useValidate : List JSVal → Option JsError
  | [] => none
  | f :: rest =>
    if jsTypeof f ≠ "function" then some (.typeError "Middleware must be composed of functions!")
    else useValidate rest

/-- `Application.use` (index.js, lines 477-483): validate every argument
is a function, then append them in order to `this.middlewares` and return
the application. -/
def use (app : AppObj) (fns : List JSVal) : Except JsError AppObj :=
  match useValidate fns with
  | some e => .error e
  | none => .ok { app with middlewares := app.middlewares ++ fns }

/-- `Application.prefetch` (index.js, lines 463-470), translated exactly
as written: the first guard tests `typeof count !== 'number'`; the second
guard — intended for `global` — again tests `count`, against
`'boolean'`.  On success the stored `prefetchOpts` pair is returned. -/
def prefetch (count globalFlag : JSVal) : Except JsError (JSVal × JSVal) :=
  if jsTypeof count ≠ "number" then .error (.typeError "[count] must be a number.")
  else if jsTypeof count ≠ "boolean" then .error (.typeError "[global] must be a boolean.")
  else .ok (count, globalFlag)

/-- Settled outcome of `Application.connect` as observed by its caller and
by the process.  `thrownBeforeConnect` is a validation failure raised
before any connection is attempted.  `completed` carries the state of the
promise `connect` returns together with the rejections that escape to the
process as unhandled (nothing in `connect` awaits them). -/
inductive ConnectOutcome where
  | thrownBeforeConnect (e : JsError)
  | completed (promise : Except JsError Unit) (unhandledRejections : List JsError)

/-- True exactly when `connect` failed before attempting a connection. -/
def isThrownBeforeConnect : ConnectOutcome → Bool
  | .thrownBeforeConnect _ => true
  | _ => false

/-- True exactly when `connect` got past validation into the
connection-opening phase. -/
def reachesConnection : ConnectOutcome → Bool
  | .completed _ _ => true
  | _ => false

/-- `Application.connect` (index.js, lines 491-542).  The four sequential
validations run before any connection is attempted.  The `try` block
(creating the connection, the two channels, and the consumer subscription)
is embedded by its settled outcome `setupResult`; the `close()` cleanup
call is embedded by `closeResult`.  The `catch` block is translated
literally: it evaluates `this.close().catch((closeError) => { throw err; })`
without awaiting or returning it, so the block completes normally and the
promise `connect` returned fulfills; the only effect of the inner callback
is that, when `close()` rejects, the derived promise rejects with the
original `err` and, having no handler, escapes as an unhandled rejection
(the cleanup error itself is handled by that callback and vanishes). -/
def connectRun (app : AppObj) (url socketOpts : JSVal)
    (setupResult closeResult : Except JsError Unit) : ConnectOutcome :=
  if app.middlewares.length = 0 then
    .thrownBeforeConnect (.error "At least one queue middleware is required.")
  else if app.errorListenerCount = 0 then
    .thrownBeforeConnect (.error "An error handler is required.")
  else if jsTypeof url ≠ "string" then
    .thrownBeforeConnect (.typeError "[url] must be a string.")
  else if jsTypeof socketOpts ≠ "object" then
    .thrownBeforeConnect (.typeError "[socketOpts] must be an object.")
  else
    match setupResult with
    | .ok _ => .completed (.ok ()) []
    | .error e =>
      match closeResult with
      | .ok _ => .completed (.ok ()) []
      | .error _ => .completed (.ok ()) [e]

/-- Instrumentation events recorded by handlers in the dispatch model. -/
inductive Ev where
  | entry (i : Nat)
  | exit (i : Nat)
deriving DecidableEq, Repr

/-- Recognizer for entry events. -/
def Ev.isEntry : Ev → Bool
  | .entry _ => true
  | .exit _ => false

/-- Mutable state threaded through one run of the composed handler: the
composition engine's `index` closure variable (initially `-1`) and the
instrumentation trace of the handlers run so far.  Side effects persist
through failures, as in JavaScript. -/
structure DS where
  index : Int
  trace : List Ev
deriving DecidableEq, Repr

/-- A context object as passed to handlers. -/
abbrev CtxT : Type := List (String × JSVal)

/-- A continuation: from the current dispatch state to a settled outcome
and the resulting state. -/
abbrev Next : Type := DS → Except JsError Unit × DS

/-- A middleware handler: receives the context and its `next`
continuation.  A synchronous throw and an asynchronous rejection both
settle as `.error`, which is exactly how the engine (which wraps
synchronous throws into rejections) and the dispatch loop (which awaits
the composed handler inside `try`) observe them. -/
abbrev Handler : Type := CtxT → Next → Next

/-- The composition engine's chain-discipline error. -/
def nextErr : JsError := .error "next() called multiple times"

/-- Modelled from the spec: the Composition Engine (the `koa-compose`
dependency required by index.js, whose implementation is not among this
repository's sources).  Per spec section 4.1: dispatching index `i` first
checks the shared guard (`i` at most the last dispatched index fails the
chain with the distinct `next() called multiple times` error), records
`i` in the guard variable, then — past the final index — completes as a
no-op, and otherwise invokes handler `i` with the context and the
continuation that dispatches `i + 1`.  The handler list is passed as the
suffix from position `i`, so the recursion is structural; `i` itself is
carried for the guard arithmetic. -/
def dispatchFrom (ctx : CtxT) : List Handler → Nat → Next
  | [], i => fun s =>
    if (i : Int) ≤ s.index then (.error nextErr, s)
    else (.ok (), { s with index := (i : Int) })
  | f :: rest, i => fun s =>
    if (i : Int) ≤ s.index then (.error nextErr, s)
    else f ctx (dispatchFrom ctx rest (i + 1)) { s with index := (i : Int) }

/-- One run of the composed handler `compose(middlewares)(context)`: the
whole chain dispatched from index `0` with a fresh guard variable `-1`
and an empty trace. -/
def composeFn (mws : List Handler) (ctx : CtxT) : Except JsError Unit × DS :=
  dispatchFrom ctx mws 0 ⟨-1, []⟩

/-- One `consumer:error` emission: the event name, the error, and the
context passed alongside it (`Context.onerror`, src/context.js, lines
64-66, emits on the owning application; the emitter delivery to listeners
is the external notification collaborator and is embedded as recording
the emission). -/
structure Emission where
  event : String
  err : JsError
  ctx : CtxT

/-- The per-message delivery callback produced by `messageHandler`
(index.js, lines 501-511): construct one `Context` for the message, run
the composed handler on it inside `try`, and on failure call that
context's `onerror`, which emits `consumer:error` with the error and the
context.  The first component is the settled state of the promise the
callback hands back to the transport's consume subscription; the second
lists the emissions performed. -/
def messageHandlerRun (app : AppObj) (mws : List Handler) (message : JSVal) :
    Except JsError Unit × List Emission :=
  let context := contextNew app message
  match (composeFn mws context).1 with
  | .ok _ => (.ok (), [])
  | .error e => (.ok (), [⟨"consumer:error", e, context⟩])

/-- The generic instrumented handler of spec section 8: record an entry
event, await the continuation, and on its success record an exit event; a
failure of the continuation propagates and skips the exit event. -/
def instr (i : Nat) : Handler := fun _ next s =>
  match next { s with trace := s.trace ++ [.entry i] } with
  | (.ok _, s') => (.ok (), { s' with trace := s'.trace ++ [.exit i] })
  | (.error e, s') => (.error e, s')

/-- A buggy handler that invokes its continuation twice: record entry,
await the continuation, await it again, and only then record exit; a
failure of either continuation call propagates. -/
def doubleNext (i : Nat) : Handler := fun _ next s =>
  match next { s with trace := s.trace ++ [.entry i] } with
  | (.ok _, s1) =>
    match next s1 with
    | (.ok _, s2) => (.ok (), { s2 with trace := s2.trace ++ [.exit i] })
    | (.error e, s2) => (.error e, s2)
  | (.error e, s1) => (.error e, s1)

/-- The ordered sequence of `n` instrumented handlers. -/
def instrList (n : Nat) : List Handler :=
  (List.range n).map instr

/-- The ordered sequence of `n` handlers in which handler `k` invokes its
continuation twice and every other handler is well behaved. -/
def twiceList (n k : Nat) : List Handler :=
  (List.range n).map (fun i => if i = k then doubleNext i else instr i)

/-- A handler that fails immediately with the given error (a thrown or
rejected handler body). -/
def failingHandler (e : JsError) : Handler := fun _ _ s => (.error e, s)

/-- A concrete well-configured application used by the witnesses. -/
def app1 : AppObj :=
  ⟨.vref "connection", .vref "consumerChannel", .vref "publisherChannel",
   .vstr "test_queue", .vobj [], .vobj [], [], [.vfun 0], 1⟩

/-- A concrete application with no registered middleware. -/
def appNoMiddleware : AppObj :=
  ⟨.vref "connection", .vref "consumerChannel", .vref "publisherChannel",
   .vstr "test_queue", .vobj [], .vobj [], [], [], 1⟩

/-- A concrete application whose `app.context` collides with the built-in
`message` field. -/
def appCollide : AppObj :=
  ⟨.vref "connection", .vref "consumerChannel", .vref "publisherChannel",
   .vstr "test_queue", .vobj [], .vobj [], [("message", .vstr "stolen")], [.vfun 0], 1⟩

example : bufferFrom (.vstr "hi") = .vbuf [104, 105] := by rfl

example : bufferFrom (.vobj [("a", .vnum 1)]) = .vbuf (utf8Bytes "\x7b\"a\":1\x7d") := by rfl

example : prefetch (.vnum 20) (.vbool false) =
    .error (.typeError "[global] must be a boolean.") := by rfl

example : composeFn (instrList 2) [] =
    (.ok (), ⟨2, [.entry 0, .entry 1, .exit 1, .exit 0]⟩) := by rfl

example : composeFn (twiceList 3 1) [] =
    (.error nextErr, ⟨3, [.entry 0, .entry 1, .entry 2, .exit 2]⟩) := by rfl

theorem getKey_setKey : ∀ (o : List (String × JSVal)) (k' k : String) (v : JSVal),
    getKey (setKey o k' v) k = if k' = k then some v else getKey o k
  | [], k', k, v => by simp [setKey, getKey]
  | (a, b) :: tl, k', k, v => by
    by_cases h1 : a = k'
    · subst h1
      by_cases h2 : a = k <;> simp [setKey, getKey, h2]
    · by_cases h3 : a = k
      · subst h3
        have h4 : ¬(k' = a) := fun hh => h1 hh.symm
        simp [setKey, getKey, h1, h4]
      · simp [setKey, getKey, h1, h3, getKey_setKey tl k' k v]

theorem objAssign_getKey : ∀ (src tgt : List (String × JSVal)) (k : String),
    getKey (objAssign tgt src) k = (lookupLast src k).elim (getKey tgt k) some
  | [], tgt, k => by simp [objAssign, lookupLast]
  | (a, b) :: rest, tgt, k => by
    have h := objAssign_getKey rest (setKey tgt a b) k
    simp only [objAssign, List.foldl_cons] at h ⊢
    rw [h]
    simp only [lookupLast]
    cases hl : lookupLast rest k with
    | none =>
      rw [getKey_setKey]
      by_cases h2 : a = k <;> simp [h2]
    | some w => simp

theorem lookupLast_eq_none : ∀ (l : List (String × JSVal)) (k : String),
    (∀ p ∈ l, p.1 ≠ k) → lookupLast l k = none
  | [], _, _ => rfl
  | (a, b) :: rest, k, h => by
    have ha : a ≠ k := h (a, b) (List.mem_cons_self _ _)
    have hr := lookupLast_eq_none rest k (fun p hp => h p (List.mem_cons_of_mem _ hp))
    simp [lookupLast, hr, ha]

/-- Claim C10: during `Context` construction, every own enumerable
property of `app.context` is copied onto the new context after the
built-in fields are assigned, so an `app.context` key colliding with a
built-in field replaces that per-message value on every context
subsequently constructed; when no such collision exists, each new context
starts with a fresh empty `state` object and the message it was
constructed with. -/
theorem context_assign_override (app : AppObj) (m : JSVal) :
    (∀ (k : String) (v : JSVal), lookupLast app.context k = some v →
      getKey (contextNew app m) k = some v) ∧
    ((∀ p ∈ app.context, p.1 ∉ builtinContextKeys) →
      getKey (contextNew app m) "state" = some (.vobj []) ∧
      getKey (contextNew app m) "message" = some m) := by
  constructor
  · intro k v hv
    unfold contextNew
    rw [objAssign_getKey, hv]
    rfl
  · intro hno
    have hs : lookupLast app.context "state" = none :=
      lookupLast_eq_none _ _ (fun p hp h => hno p hp (h ▸ (by decide : "state" ∈ builtinContextKeys)))
    have hm : lookupLast app.context "message" = none :=
      lookupLast_eq_none _ _ (fun p hp h => hno p hp (h ▸ (by decide : "message" ∈ builtinContextKeys)))
    constructor
    · unfold contextNew
      rw [objAssign_getKey, hs]
      rfl
    · unfold contextNew
      rw [objAssign_getKey, hm]
      rfl

theorem context_assign_override_witness :
    getKey (contextNew appCollide (.vstr "m1")) "message" = some (.vstr "stolen") ∧
    getKey (contextNew app1 (.vstr "m1")) "state" = some (.vobj []) ∧
    getKey (contextNew app1 (.vstr "m1")) "message" = some (.vstr "m1") := by
  have h1 := (context_assign_override appCollide (.vstr "m1")).1 "message" (.vstr "stolen") (by rfl)
  have h2 := (context_assign_override app1 (.vstr "m1")).2
    (by intro p hp; simp [app1] at hp)
  exact ⟨h1, h2.1, h2.2⟩

theorem useValidate_eq_none : ∀ (fns : List JSVal),
    (∀ f ∈ fns, jsTypeof f = "function") → useValidate fns = none
  | [], _ => rfl
  | f :: rest, h => by
    have hf : jsTypeof f = "function" := h f (List.mem_cons_self _ _)
    have hr := useValidate_eq_none rest (fun g hg => h g (List.mem_cons_of_mem _ hg))
    simp [useValidate, hf, hr]

theorem useValidate_of_bad : ∀ (fns : List JSVal),
    (∃ f ∈ fns, jsTypeof f ≠ "function") →
    useValidate fns = some (.typeError "Middleware must be composed of functions!")
  | [], h => by simp at h
  | f :: rest, h => by
    by_cases hf : jsTypeof f = "function"
    · have hrest : ∃ g ∈ rest, jsTypeof g ≠ "function" := by
        obtain ⟨g, hg, hgt⟩ := h
        rcases List.mem_cons.mp hg with hgf | hgr
        · exact absurd (hgf ▸ hf) hgt
        · exact ⟨g, hgr, hgt⟩
      simp [useValidate, hf, useValidate_of_bad rest hrest]
    · simp [useValidate, hf]

/-- Claim C8: registering a non-callable element is raised synchronously
at registration time — `use` throws a `TypeError` if any argument is not
a function; with only function arguments, `use` appends them to the
middleware sequence in order and returns the application. -/
theorem use_type_validation (app : AppObj) (fns : List JSVal) :
    ((∃ f ∈ fns, jsTypeof f ≠ "function") → isTypeError (use app fns) = true) ∧
    ((∀ f ∈ fns, jsTypeof f = "function") →
      use app fns = .ok { app with middlewares := app.middlewares ++ fns }) := by
  constructor
  · intro h
    simp [use, useValidate_of_bad fns h, isTypeError]
  · intro h
    simp [use, useValidate_eq_none fns h]

theorem use_type_validation_witness :
    isTypeError (use app1 [.vfun 1, .vnum 3]) = true ∧
    use app1 [.vfun 1, .vfun 2] =
      .ok { app1 with middlewares := app1.middlewares ++ [.vfun 1, .vfun 2] } := by
  constructor
  · exact (use_type_validation app1 [.vfun 1, .vnum 3]).1
      ⟨.vnum 3, List.mem_cons_of_mem _ (List.mem_cons_self _ _), by decide⟩
  · refine (use_type_validation app1 [.vfun 1, .vfun 2]).2 ?_
    intro f hf
    rcases List.mem_cons.mp hf with rfl | hf2
    · rfl
    · rcases List.mem_cons.mp hf2 with rfl | hf3
      · rfl
      · exact absurd hf3 (List.not_mem_nil f)

/-- Claim C9: for every numeric `count`, `prefetch(count, global)` throws
`TypeError('[global] must be a boolean.')` regardless of the value of
`global`, because the second validation re-tests `count` instead of
`global`; consequently `prefetchOpts` can never be set through this
method with a numeric count. -/
theorem prefetch_global_check_bug (n : Int) (g : JSVal) :
    prefetch (.vnum n) g = .error (.typeError "[global] must be a boolean.") := by
  rfl

/-- Claim C4: `connect` fails with a fatal configuration error before any
connection is attempted whenever the middleware sequence is empty or no
`consumer:error` listener is registered; when both preconditions hold and
the arguments are well-typed, `connect` proceeds to open the
connection. -/
theorem connect_validates_before_connecting (app : AppObj) (url socketOpts : JSVal)
    (setupResult closeResult : Except JsError Unit) :
    ((app.middlewares.length = 0 ∨ app.errorListenerCount = 0) →
      isThrownBeforeConnect (connectRun app url socketOpts setupResult closeResult) = true) ∧
    (app.middlewares.length ≠ 0 → app.errorListenerCount ≠ 0 →
      jsTypeof url = "string" → jsTypeof socketOpts = "object" →
      reachesConnection (connectRun app url socketOpts setupResult closeResult) = true) := by
  constructor
  · intro h
    unfold connectRun
    split_ifs with h1 h2 h3 h4
    · rfl
    · rfl
    · rfl
    · rfl
    · rcases h with h | h
      · exact absurd h h1
      · exact absurd h h2
  · intro h1 h2 h3 h4
    unfold connectRun
    rw [if_neg h1, if_neg h2, if_neg (not_not_intro h3), if_neg (not_not_intro h4)]
    cases setupResult with
    | ok _ => rfl
    | error e => cases closeResult <;> rfl

theorem connect_validates_before_connecting_witness :
    isThrownBeforeConnect
      (connectRun appNoMiddleware (.vstr "amqp://localhost") (.vobj []) (.ok ()) (.ok ())) = true ∧
    reachesConnection
      (connectRun app1 (.vstr "amqp://localhost") (.vobj []) (.ok ()) (.ok ())) = true := by
  constructor
  · exact (connect_validates_before_connecting appNoMiddleware _ _ _ _).1 (Or.inl rfl)
  · exact (connect_validates_before_connecting app1 _ _ _ _).2
      (by decide) (by decide) rfl rfl

/-- Claim C2 evaluated on the code: with a well-configured application,
when setup inside `connect`'s `try` block fails with an error, `connect`'s
returned promise nevertheless fulfills.  When `close()` succeeds the
original error is observable nowhere; when `close()` also fails, the
original error surfaces only as an unhandled rejection escaping to the
process (not through `connect`'s promise) and the cleanup error is
swallowed.  This refutes the claimed re-raising of the original error to
the caller. -/
theorem connect_swallows_startup_error :
    connectRun app1 (.vstr "amqp://localhost") (.vobj [])
      (.error (.error "ECONNREFUSED")) (.ok ()) = .completed (.ok ()) [] ∧
    connectRun app1 (.vstr "amqp://localhost") (.vobj [])
      (.error (.error "ECONNREFUSED")) (.error (.error "close failed")) =
      .completed (.ok ()) [.error "ECONNREFUSED"] :=
  ⟨rfl, rfl⟩

/-- Claim C1: `publish` and `sendToQueue` convert string, plain-object
and Buffer content to a byte buffer (objects JSON-serialized, strings
UTF-8 encoded, Buffers passed through unchanged) and delegate that buffer
to the publisher channel's corresponding operation, returning the
transport operation's result. -/
theorem publish_buffers_content (ex rk q s : String) (fields : List (String × JSVal))
    (bytes : List UInt8) (opts : List (String × JSVal)) :
    publish (.vstr ex) (.vstr rk) (.vstr s) (.vobj opts) =
      .ok ⟨"publisherChannel", "publish",
        [.vstr ex, .vstr rk, .vbuf (utf8Bytes s), .vobj opts]⟩ ∧
    publish (.vstr ex) (.vstr rk) (.vobj fields) (.vobj opts) =
      .ok ⟨"publisherChannel", "publish",
        [.vstr ex, .vstr rk, .vbuf (utf8Bytes (jsonStringifyD (.vobj fields))), .vobj opts]⟩ ∧
    publish (.vstr ex) (.vstr rk) (.vbuf bytes) (.vobj opts) =
      .ok ⟨"publisherChannel", "publish", [.vstr ex, .vstr rk, .vbuf bytes, .vobj opts]⟩ ∧
    sendToQueue (.vstr q) (.vstr s) (.vobj opts) =
      .ok ⟨"publisherChannel", "sendToQueue", [.vstr q, .vbuf (utf8Bytes s), .vobj opts]⟩ ∧
    sendToQueue (.vstr q) (.vobj fields) (.vobj opts) =
      .ok ⟨"publisherChannel", "sendToQueue",
        [.vstr q, .vbuf (utf8Bytes (jsonStringifyD (.vobj fields))), .vobj opts]⟩ ∧
    sendToQueue (.vstr q) (.vbuf bytes) (.vobj opts) =
      .ok ⟨"publisherChannel", "sendToQueue", [.vstr q, .vbuf bytes, .vobj opts]⟩ :=
  ⟨rfl, rfl, rfl, rfl, rfl, rfl⟩

/-- Claim C7: `publish` and `sendToQueue` throw a `TypeError` — and hence
produce no channel call — whenever the exchange, routing key or queue
name is not a string, the content is neither a string nor of object type
nor a Buffer, or the options value is not of object type; in particular a
function-valued content is rejected before reaching the transport. -/
theorem publish_type_validation (ex rk q content options : JSVal) :
    ((jsTypeof ex ≠ "string" ∨ jsTypeof rk ≠ "string" ∨
        ¬(jsTypeof content = "string" ∨ jsTypeof content = "object" ∨ isBuffer content) ∨
        jsTypeof options ≠ "object") →
      isTypeError (publish ex rk content options) = true) ∧
    ((jsTypeof q ≠ "string" ∨
        ¬(jsTypeof content = "string" ∨ jsTypeof content = "object" ∨ isBuffer content) ∨
        jsTypeof options ≠ "object") →
      isTypeError (sendToQueue q content options) = true) := by
  constructor
  · intro h
    unfold publish
    split_ifs with h1 h2 h3 h4
    any_goals rfl
    rcases h with h | h | h | h
    · exact absurd h h1
    · exact absurd h h2
    · exact absurd h3 h
    · exact absurd h h4
  · intro h
    unfold sendToQueue
    split_ifs with h1 h2 h3
    any_goals rfl
    rcases h with h | h | h
    · exact absurd h h1
    · exact absurd h2 h
    · exact absurd h h3

theorem publish_type_validation_witness :
    isTypeError (publish (.vstr "ex") (.vstr "rk") (.vfun 7) (.vobj [])) = true ∧
    isTypeError (sendToQueue (.vstr "q") (.vfun 7) (.vobj [])) = true := by
  have h := publish_type_validation (.vstr "ex") (.vstr "rk") (.vstr "q") (.vfun 7) (.vobj [])
  exact ⟨h.1 (Or.inr (Or.inr (Or.inl (by decide)))), h.2 (Or.inr (Or.inl (by decide)))⟩

/-- Claim C3: for every delivered message the dispatch loop constructs
exactly one context, invokes the composed handler with it, and on any
failure — thrown synchronously or surfaced as an asynchronous rejection,
both of which settle the composed handler's outcome as an error — invokes
that same context's `onerror` exactly once with the error; the delivery
callback's promise never rejects back into the transport, and `onerror`
(an emission on the application) does not throw. -/
theorem messageHandler_funnels_errors (app : AppObj) (mws : List Handler) (message : JSVal) :
    (messageHandlerRun app mws message).1 = .ok () ∧
    (messageHandlerRun app mws message).2.length ≤ 1 ∧
    ((composeFn mws (contextNew app message)).1 = .ok () →
      (messageHandlerRun app mws message).2 = []) ∧
    (∀ e : JsError, (composeFn mws (contextNew app message)).1 = .error e →
      (messageHandlerRun app mws message).2 =
        [⟨"consumer:error", e, contextNew app message⟩]) := by
  cases h : (composeFn mws (contextNew app message)).1 with
  | ok u =>
    exact ⟨by simp [messageHandlerRun, h], by simp [messageHandlerRun, h],
      fun _ => by simp [messageHandlerRun, h], fun e he => Except.noConfusion he⟩
  | error e =>
    refine ⟨by simp [messageHandlerRun, h], by simp [messageHandlerRun, h],
      fun hok => Except.noConfusion hok, fun e2 he2 => ?_⟩
    injection he2 with h3
    rw [← h3]
    simp [messageHandlerRun, h]

theorem messageHandler_funnels_errors_witness :
    (messageHandlerRun app1 [failingHandler (.error "boom")] (.vstr "m")).1 = .ok () ∧
    (messageHandlerRun app1 [failingHandler (.error "boom")] (.vstr "m")).2 =
      [⟨"consumer:error", .error "boom", contextNew app1 (.vstr "m")⟩] ∧
    (messageHandlerRun app1 [] (.vstr "m")).2 = [] := by
  refine ⟨(messageHandler_funnels_errors app1 [failingHandler (.error "boom")] (.vstr "m")).1,
    (messageHandler_funnels_errors app1 [failingHandler (.error "boom")] (.vstr "m")).2.2.2
      (.error "boom") (by rfl),
    (messageHandler_funnels_errors app1 [] (.vstr "m")).2.2.1 (by rfl)⟩

theorem dispatchFrom_guard (ctx : CtxT) (l : List Handler) (i : Nat) (s : DS)
    (h : (i : Int) ≤ s.index) : dispatchFrom ctx l i s = (.error nextErr, s) := by
  cases l <;> simp [dispatchFrom, h]

theorem dispatchFrom_instr_map (ctx : CtxT) :
    ∀ (js : List Nat) (i : Nat) (s : DS), s.index < (i : Int) →
    dispatchFrom ctx (js.map instr) i s =
      (.ok (), ⟨((i + js.length : Nat) : Int),
        s.trace ++ js.map Ev.entry ++ js.reverse.map Ev.exit⟩)
  | [], i, s, h => by
    simp only [List.map_nil, dispatchFrom, List.length_nil, List.reverse_nil,
      List.append_nil, Nat.add_zero]
    rw [if_neg (not_le.mpr h)]
  | j :: js, i, s, h => by
    have hrec := dispatchFrom_instr_map ctx js (i + 1) ⟨(i : Int), s.trace ++ [Ev.entry j]⟩
      (by push_cast; omega)
    simp only [List.map_cons, dispatchFrom]
    rw [if_neg (not_le.mpr h)]
    simp only [instr]
    rw [hrec]
    simp only [List.reverse_cons, List.map_append, List.map_cons, List.map_nil,
      List.append_assoc, List.nil_append, List.cons_append, List.length_cons]
    rw [show i + 1 + js.length = i + (js.length + 1) from by omega]

theorem range_split (n k : Nat) (h : k < n) :
    List.range n = List.range' 0 k ++ k :: List.range' (k + 1) (n - k - 1) := by
  have h1 := List.range'_append 0 k (n - k) 1
  have h2 : List.range' k (n - k) = k :: List.range' (k + 1) (n - k - 1) := by
    conv_lhs => rw [show n - k = (n - k - 1) + 1 from by omega]
    rw [List.range'_succ]
  conv_lhs => rw [List.range_eq_range', show n = (n - k) + k from by omega]
  rw [← h1]
  simp only [Nat.zero_add, Nat.one_mul]
  rw [h2]

theorem twiceList_eq (n k : Nat) (h : k < n) :
    twiceList n k =
      (List.range' 0 k).map instr ++
        doubleNext k :: (List.range' (k + 1) (n - k - 1)).map instr := by
  unfold twiceList
  rw [range_split n k h, List.map_append, List.map_cons]
  congr 1
  · apply List.map_congr_left
    intro a ha
    have h5 := List.mem_range'_1.mp ha
    rw [if_neg (by omega)]
  · congr 1
    · rw [if_pos rfl]
    · apply List.map_congr_left
      intro a ha
      have h5 := List.mem_range'_1.mp ha
      rw [if_neg (by omega)]

theorem dispatchFrom_doubleNext_chain (ctx : CtxT) (k m : Nat) :
    ∀ (js : List Nat) (i : Nat) (s : DS), s.index < (i : Int) →
    dispatchFrom ctx (js.map instr ++ doubleNext k :: (List.range' (k + 1) m).map instr) i s =
      (.error nextErr,
        ⟨((i + js.length + 1 + m : Nat) : Int),
         s.trace ++ js.map Ev.entry ++ Ev.entry k ::
           ((List.range' (k + 1) m).map Ev.entry ++
             ((List.range' (k + 1) m).reverse).map Ev.exit)⟩)
  | [], i, s, h => by
    have hlen : (List.range' (k + 1) m).length = m := List.length_range' _ _ _
    have hnext1 : dispatchFrom ctx ((List.range' (k + 1) m).map instr) (i + 1)
        ⟨(i : Int), s.trace ++ [Ev.entry k]⟩ =
        (.ok (), ⟨((i + 1 + m : Nat) : Int),
          s.trace ++ [Ev.entry k] ++ (List.range' (k + 1) m).map Ev.entry ++
            ((List.range' (k + 1) m).reverse).map Ev.exit⟩) := by
      rw [dispatchFrom_instr_map ctx (List.range' (k + 1) m) (i + 1)
        ⟨(i : Int), s.trace ++ [Ev.entry k]⟩ (by push_cast; omega), hlen]
    have hnext2 : dispatchFrom ctx ((List.range' (k + 1) m).map instr) (i + 1)
        ⟨((i + 1 + m : Nat) : Int),
          s.trace ++ [Ev.entry k] ++ (List.range' (k + 1) m).map Ev.entry ++
            ((List.range' (k + 1) m).reverse).map Ev.exit⟩ =
        (.error nextErr, ⟨((i + 1 + m : Nat) : Int),
          s.trace ++ [Ev.entry k] ++ (List.range' (k + 1) m).map Ev.entry ++
            ((List.range' (k + 1) m).reverse).map Ev.exit⟩) :=
      dispatchFrom_guard ctx _ (i + 1) _ (by push_cast; omega)
    simp only [List.map_nil, List.nil_append, dispatchFrom]
    rw [if_neg (not_le.mpr h)]
    simp only [doubleNext, hnext1, hnext2]
    simp [List.append_assoc, List.singleton_append]
  | j :: js, i, s, h => by
    have hrec := dispatchFrom_doubleNext_chain ctx k m js (i + 1)
      ⟨(i : Int), s.trace ++ [Ev.entry j]⟩ (by push_cast; omega)
    simp only [List.map_cons, List.cons_append, dispatchFrom]
    rw [if_neg (not_le.mpr h)]
    simp only [instr, List.append_eq, hrec]
    rw [show i + 1 + js.length + 1 + m = i + (js.length + 1) + 1 + m from by omega]
    simp [List.append_assoc, List.singleton_append]

/-- Claim C5: dispatching one message through any ordered sequence of `n`
handlers that each record an entry event, await their continuation and
record an exit event produces the strict onion trace
entry 0, …, entry (n-1), exit (n-1), …, exit 0 — every handler's pre-next
code runs before the next handler is entered and its post-next code runs
after the whole downstream subtree has settled — and the chain completes
successfully with the guard variable at `n`. -/
theorem compose_onion_trace (n : Nat) (ctx : CtxT) :
    composeFn (instrList n) ctx =
      (.ok (), ⟨(n : Int),
        (List.range n).map Ev.entry ++ ((List.range n).reverse).map Ev.exit⟩) := by
  unfold composeFn instrList
  rw [dispatchFrom_instr_map ctx (List.range n) 0 ⟨-1, []⟩ (by norm_num)]
  simp [List.length_range]

theorem entry_injective : Function.Injective Ev.entry := by
  intro a b hab
  injection hab

/-- Claim C6: when handler `k` of an `n`-handler chain invokes its
continuation a second time, the chain fails with the distinct
`next() called multiple times` error; the trace shows every handler
entered at most once (entries are exactly `entry 0, …, entry (n-1)` with
no duplicates, so nothing downstream is re-dispatched), and the dispatch
loop routes the error through the same `consumer:error` funnel as a
handler's own failure instead of letting it escape. -/
theorem compose_next_called_twice (n k : Nat) (app : AppObj) (message : JSVal) (h : k < n) :
    composeFn (twiceList n k) (contextNew app message) =
      (.error nextErr,
        ⟨(n : Int), (List.range n).map Ev.entry ++
          ((List.range' (k + 1) (n - k - 1)).reverse).map Ev.exit⟩) ∧
    ((composeFn (twiceList n k) (contextNew app message)).2.trace.filter Ev.isEntry =
      (List.range n).map Ev.entry) ∧
    ((composeFn (twiceList n k) (contextNew app message)).2.trace.filter Ev.isEntry).Nodup ∧
    (messageHandlerRun app (twiceList n k) message).2 =
      [⟨"consumer:error", nextErr, contextNew app message⟩] := by
  have key : ∀ ctx : CtxT, composeFn (twiceList n k) ctx =
      (.error nextErr,
        ⟨(n : Int), (List.range n).map Ev.entry ++
          ((List.range' (k + 1) (n - k - 1)).reverse).map Ev.exit⟩) := by
    intro ctx
    unfold composeFn
    rw [twiceList_eq n k h]
    rw [dispatchFrom_doubleNext_chain ctx k (n - k - 1) (List.range' 0 k) 0 ⟨-1, []⟩
      (by norm_num)]
    rw [show (0 + (List.range' 0 k).length + 1 + (n - k - 1) : Nat) = n from by
      simp [List.length_range']; omega]
    rw [range_split n k h]
    simp [List.append_assoc]
  have hfilter : (composeFn (twiceList n k) (contextNew app message)).2.trace.filter Ev.isEntry =
      (List.range n).map Ev.entry := by
    rw [key]
    simp only [List.filter_append]
    rw [List.filter_map, List.filter_map]
    simp [Function.comp_def, Ev.isEntry]
  refine ⟨key _, hfilter, ?_, ?_⟩
  · rw [hfilter]
    exact List.Nodup.map entry_injective (List.nodup_range n)
  · simp only [messageHandlerRun]
    rw [key (contextNew app message)]

theorem compose_next_called_twice_witness :
    1 < 3 ∧
    composeFn (twiceList 3 1) (contextNew app1 (.vstr "m")) =
      (.error nextErr, ⟨3, [.entry 0, .entry 1, .entry 2, .exit 2]⟩) ∧
    (messageHandlerRun app1 (twiceList 3 1) (.vstr "m")).2 =
      [⟨"consumer:error", nextErr, contextNew app1 (.vstr "m")⟩] := by
  have h := compose_next_called_twice 3 1 app1 (.vstr "m") (by decide)
  exact ⟨by decide, h.1.trans (by rfl), h.2.2.2⟩
